import Mathlib

/-!
# SoundBoard exporter plugin: a shallow embedding of `src/src/plugin.c`

The plugin records, per speaker, each speaking turn into a WAV file.  The C code
works on `FILE*` streams, a hash map from client id to `struct UserData*`, and
machine integers.  The embedding below keeps the names of the C functions.

Modelling conventions
* A byte is a `Nat` below 256; a stream is the list of its bytes and a position.
* `int` values are mathematical integers (`Int`); every place where the C code
  converts one to `unsigned int` is an explicit reduction modulo `2^32`
  (`to_unsigned`).  Everything the plugin observes of an `int` goes through such a
  conversion or through a comparison of values handed in by the host, so
  wrap-around of the 32-bit `int` arithmetic gives the same bytes.
* `fwrite(&buf, 1, 1, f)` with `unsigned buf` writes the byte of `buf` at the
  lowest address.  The embedding is of the plugin on a little-endian host (the
  x86 targets the plugin is built for), where that byte is `buf % 256`.
* What the host and the C library answer (own client id, identifier string,
  environment variable, clock, success of `fopen`) is an explicit argument.
-/

namespace SoundBoard

/-! ## Streams -/

/-- A stdio stream opened on a file: the file's name, its bytes so far, and the
current position of the stream. -/
structure FILE where
  name : List Char
  bytes : List Nat
  pos : Nat
deriving DecidableEq, Repr

/-- The call `fopen(file_name, "w")`: a fresh, empty file positioned at 0, or `NULL` (here
`none`) when the C library cannot open it; `ok` is the library's answer. -/
def fopen (file_name : List Char) (ok : Bool) : Option FILE :=
  if ok then some { name := file_name, bytes := [], pos := 0 } else none

/-- The call `fseek(f, offset, SEEK_SET)`. -/
def fseek (f : FILE) (offset : Nat) : FILE :=
  { f with pos := offset }

/-- Writing one byte at the current position: inside the file it replaces the byte there,
at the end it appends, past the end the gap is filled with zero bytes first. -/
def fputc (b : Nat) (f : FILE) : FILE :=
  if f.pos < f.bytes.length then
    { f with bytes := f.bytes.set f.pos b, pos := f.pos + 1 }
  else
    { f with bytes := f.bytes ++ List.replicate (f.pos - f.bytes.length) 0 ++ [b],
             pos := f.pos + 1 }

/-- The call `fwrite(ptr, 1, n, f)` for the `n` bytes `bs` found at `ptr`. -/
def fwrite (bs : List Nat) (f : FILE) : FILE :=
  bs.foldl (fun g b => fputc b g) f

/-- The bytes of a C string literal (without its terminator). -/
def c_str (s : String) : List Nat :=
  s.toList.map Char.toNat

/-- Conversion of an `int` (or `short`) to `unsigned int`. -/
def to_unsigned (x : Int) : Nat :=
  (x % 4294967296).toNat

/-! ## Helper functions of the plugin -/

/-- The loop of `write_little_endian`, run `n` more times:
`buf = word & 0xff; fwrite(&buf, 1, 1, wav_file); num_bytes--; word >>= 8;`. -/
def write_little_endian_loop (word : Nat) (n : Nat) (wav_file : FILE) : FILE :=
  match n with
  | 0 => wav_file
  | m + 1 =>
    let buf := word &&& 0xff
    let wav_file := fwrite [buf % 256] wav_file
    write_little_endian_loop (word >>> 8) m wav_file

/-- The function `write_little_endian(word, num_bytes, wav_file)`: the loop
`while (num_bytes > 0)` runs `num_bytes` times, and not at all for `num_bytes <= 0`. -/
def write_little_endian (word : Nat) (num_bytes : Int) (wav_file : FILE) : FILE :=
  write_little_endian_loop word num_bytes.toNat wav_file

/-- The record `struct UserData` of `plugin.h`; a `NULL` `wav_file` is `none`. -/
structure UserData where
  wav_file : Option FILE
  talk_state : Bool
  sample_count : Int
  channels : Int
deriving DecidableEq, Repr

/-- The header that `end_talk_state` writes, from `fseek(data->wav_file, 0, SEEK_SET)` up to
(not including) `fclose`. -/
def write_header (data : UserData) (wav_file : FILE) : FILE :=
  let f := fseek wav_file 0
  let bytes_per_sample : Int := 2
  let sample_rate : Int := 48000
  let byte_rate : Int := sample_rate * data.channels * bytes_per_sample
  -- write RIFF header
  let f := fwrite (c_str "RIFF") f
  let f := write_little_endian
    (to_unsigned (36 + bytes_per_sample * data.sample_count * data.channels)) 4 f
  let f := fwrite (c_str "WAVE") f
  -- write fmt  subchunk
  let f := fwrite (c_str "fmt ") f
  let f := write_little_endian (to_unsigned 16) 4 f
  let f := write_little_endian (to_unsigned 1) 2 f
  let f := write_little_endian (to_unsigned data.channels) 2 f
  let f := write_little_endian (to_unsigned sample_rate) 4 f
  let f := write_little_endian (to_unsigned byte_rate) 4 f
  let f := write_little_endian (to_unsigned (data.channels * bytes_per_sample)) 2 f
  let f := write_little_endian (to_unsigned (8 * bytes_per_sample)) 2 f
  let f := fwrite (c_str "data") f
  write_little_endian
    (to_unsigned (bytes_per_sample * data.sample_count * data.channels)) 4 f

/-- The function `end_talk_state(data)`.  The second argument and component is the list of
streams that have been given to `fclose`, oldest first: the files the plugin has
finished. -/
def end_talk_state (data : UserData) (closed : List FILE) : UserData × List FILE :=
  let closed :=
    match data.wav_file with
    | some wav_file =>
      if data.talk_state then closed ++ [write_header data wav_file] else closed
    | none => closed
  ({ data with channels := 0, wav_file := none, talk_state := false }, closed)

/-- The function `remove_user(data, key, value)`: `end_talk_state(value); free(value);`. -/
def remove_user (closed : List FILE) (_key : Nat) (value : UserData) : List FILE :=
  (end_talk_state value closed).2

/-- The body of the `switch` in `encode_base64` for one character.  The `case '+'` has no
`break`, so after `s[i] = '-'` control falls through into `case '/'`. -/
def encode_base64_switch (c : Char) : Char :=
  if c = '+' then
    let _c := '-'
    '_'
  else if c = '/' then
    '_'
  else
    c

/-- The loop of `encode_base64` over the buffer from index `i` on: it stops at the first
NUL character (or at the end of the characters given, where the terminator stands). -/
def encode_base64_loop : List Char → List Char
  | [] => []
  | c :: rest =>
    if c = Char.ofNat 0 then c :: rest
    else encode_base64_switch c :: encode_base64_loop rest

/-- The function `encode_base64(s)`: the returned `int` and the buffer afterwards. -/
def encode_base64 (s : List Char) : Int × List Char :=
  (0, encode_base64_loop s)

/-! ## The registry -/

/-- Modelled from the spec: the hash map of `hashmap.h` is not among the sources; the spec
describes it as a mapping from speaker identifier to Session with key uniqueness.  It is
an association list here, and each entry stands for the `struct UserData` that the
stored pointer points to. -/
abbrev hashmap := List (Nat × UserData)

/-- Modelled from the spec: `hashmap_get`, absent from the sources; `none` is the return
value `-1` (no entry for the key). -/
def hashmap_get (map : hashmap) (key : Nat) : Option UserData :=
  match map with
  | [] => none
  | (k, v) :: rest => if k = key then some v else hashmap_get rest key

/-- Modelled from the spec: `hashmap_put`, absent from the sources; it inserts the entry,
replacing an entry of the same key. -/
def hashmap_put (map : hashmap) (key : Nat) (value : UserData) : hashmap :=
  (key, value) :: map.filter (fun e => e.1 ≠ key)

/-- An assignment through the pointer `data` that the map holds for `key`: the entry
changes in place. -/
def hashmap_store (map : hashmap) (key : Nat) (value : UserData) : hashmap :=
  map.map (fun e => if e.1 = key then (e.1, value) else e)

/-- Modelled from the spec: `hashmap_iter`, absent from the sources; it applies the
callback to every entry (the spec leaves the order open; it is the list order here). -/
def hashmap_iter {σ : Type} (map : hashmap) (cb : σ → Nat → UserData → σ) (s : σ) : σ :=
  map.foldl (fun acc e => cb acc e.1 e.2) s

/-- Modelled from the spec: `hashmap_clear`, absent from the sources; it removes all
entries. -/
def hashmap_clear (_map : hashmap) : hashmap := []

/-- The state of the plugin: the global `client_map` and the streams it has closed so far
(oldest first). -/
structure Plugin where
  client_map : hashmap
  closed : List FILE
deriving DecidableEq, Repr

/-- The function `ts3plugin_init`: an empty map. -/
def ts3plugin_init : Plugin :=
  { client_map := [], closed := [] }

/-! ## TeamSpeak callbacks -/

/-- Modelled from the spec: `STATUS_TALKING` of `teamspeak/public_definitions.h`, which is
not among the sources; the spec calls it the status "talking". -/
def STATUS_TALKING : Int := 1

/-- The constant `PATH_LEN` of `plugin.h`. -/
def PATH_LEN : Nat := 1024

/-- What the host and the C library answer during one talk-status notification. -/
structure TalkEnv where
  /-- The id that `getClientID` stores in `my_id`. -/
  my_id : Nat
  /-- The string from `getClientVariableAsString`, `none` when it does not return `ERROR_ok`. -/
  client_uid : Option (List Char)
  /-- The string that `getenv("SOUNDBOARD")` points to. -/
  soundboard : List Char
  /-- The value of `get_time_stamp()`. -/
  time_stamp : Nat
  /-- Whether `fopen` returns a stream. -/
  fopen_ok : Bool
deriving DecidableEq, Repr

/-- The call `snprintf(file_name, PATH_LEN, "%s/%s-%lu.wav", dir, uid, stamp)`. -/
def file_name (dir uid : List Char) (stamp : Nat) : List Char :=
  (dir ++ ['/'] ++ uid ++ ['-'] ++ (Nat.repr stamp).toList ++ ".wav".toList).take (PATH_LEN - 1)

/-- The session a talk-status notification works on: the one `hashmap_get` finds, or a
new one that is put into the map. -/
def lookup_or_create (map : hashmap) (clientID : Nat) : hashmap × UserData :=
  match hashmap_get map clientID with
  | some data => (map, data)
  | none =>
    let data : UserData :=
      { channels := 0, wav_file := none, talk_state := false, sample_count := 0 }
    (hashmap_put map clientID data, data)

/-- The `if (status == STATUS_TALKING) ... else ...` statement of
`ts3plugin_onTalkStatusChangeEvent`, on the session `data` of `clientID`. -/
def talk_status_body (env : TalkEnv) (status : Int) (clientID : Nat) (data : UserData)
    (closed : List FILE) : UserData × List FILE :=
  if status = STATUS_TALKING then
    if data.talk_state = false ∧ env.my_id ≠ clientID then
      match env.client_uid with
      | some client_uid_base64 =>
        let r := encode_base64 client_uid_base64
        if r.1 = 0 then
          match fopen (file_name env.soundboard r.2 env.time_stamp) env.fopen_ok with
          | some wav_file =>
            -- Skip 36 bytes for header later
            ({ data with wav_file := some (fseek wav_file 36), talk_state := true }, closed)
          | none => ({ data with wav_file := none }, closed)
        else end_talk_state data closed
      | none => end_talk_state data closed
    else end_talk_state data closed
  else end_talk_state data closed

/-- The function `ts3plugin_onTalkStatusChangeEvent`. -/
def ts3plugin_onTalkStatusChangeEvent (env : TalkEnv) (status : Int) (clientID : Nat)
    (p : Plugin) : Plugin :=
  let (map, data) := lookup_or_create p.client_map clientID
  let (data, closed) := talk_status_body env status clientID data p.closed
  { client_map := hashmap_store map clientID data, closed := closed }

/-- The loop `for (i = 0; i < sampleCount; i++) write_little_endian(samples[i], 2, f)`.
The buffer `samples` is a list of `short` values; an index outside it reads as 0. -/
def write_samples (samples : List Int) (sampleCount : Int) (wav_file : FILE) : FILE :=
  (List.range sampleCount.toNat).foldl
    (fun f i => write_little_endian (to_unsigned (samples.getD i 0)) 2 f) wav_file

/-- The function `ts3plugin_onEditPlaybackVoiceDataEvent`. -/
def ts3plugin_onEditPlaybackVoiceDataEvent (clientID : Nat) (samples : List Int)
    (sampleCount channels : Int) (p : Plugin) : Plugin :=
  match hashmap_get p.client_map clientID with
  | some data =>
    if data.talk_state then
      match data.wav_file with
      | some wav_file =>
        if data.channels > 0 ∧ channels ≠ data.channels then
          let (data, closed) := end_talk_state data p.closed
          { client_map := hashmap_store p.client_map clientID data, closed := closed }
        else
          let data : UserData :=
            { data with
              channels := channels
              wav_file := some (write_samples samples sampleCount wav_file)
              sample_count := data.sample_count + sampleCount }
          { p with client_map := hashmap_store p.client_map clientID data }
      | none => p
    else p
  | none => p

/-- The function `ts3plugin_onConnectStatusChangeEvent`:
`hashmap_iter(client_map, remove_user, NULL); hashmap_clear(client_map);`. -/
def ts3plugin_onConnectStatusChangeEvent (p : Plugin) : Plugin :=
  { client_map := hashmap_clear p.client_map
    closed := hashmap_iter p.client_map remove_user p.closed }

/-- A notification from the host. -/
inductive Event where
  | talk (env : TalkEnv) (status : Int) (clientID : Nat)
  | voice (clientID : Nat) (samples : List Int) (sampleCount channels : Int)
  | connect
deriving DecidableEq, Repr

/-- The plugin's reaction to one notification. -/
def step (p : Plugin) : Event → Plugin
  | .talk env status clientID => ts3plugin_onTalkStatusChangeEvent env status clientID p
  | .voice clientID samples sampleCount channels =>
    ts3plugin_onEditPlaybackVoiceDataEvent clientID samples sampleCount channels p
  | .connect => ts3plugin_onConnectStatusChangeEvent p

/-- The plugin's state after a sequence of notifications. -/
def run (p : Plugin) (events : List Event) : Plugin :=
  events.foldl step p

/-! ## Vocabulary of the claims -/

/-- The little-endian encoding of `w` on `k` bytes, as the specification words it: byte
`i` is `(w >> 8*i) & 0xff`. -/
def le_bytes (w k : Nat) : List Nat :=
  (List.range k).map (fun i => (w >>> (8 * i)) &&& 0xff)

/-- The number that a list of bytes denotes when read as a little-endian integer. -/
def le_value : List Nat → Nat
  | [] => 0
  | b :: rest => b + 256 * le_value rest

/-- The 44 bytes that `write_header` produces for a session with the given sample count and
channel count, field by field. -/
def header_bytes (sample_count channels : Int) : List Nat :=
  c_str "RIFF" ++ le_bytes (to_unsigned (36 + 2 * sample_count * channels)) 4
    ++ c_str "WAVE" ++ c_str "fmt " ++ le_bytes 16 4 ++ le_bytes 1 2
    ++ le_bytes (to_unsigned channels) 2 ++ le_bytes 48000 4
    ++ le_bytes (to_unsigned (48000 * channels * 2)) 4
    ++ le_bytes (to_unsigned (channels * 2)) 2 ++ le_bytes 16 2
    ++ c_str "data" ++ le_bytes (to_unsigned (2 * sample_count * channels)) 4

/-- The session that `ts3plugin_onTalkStatusChangeEvent` creates for an unknown client. -/
def fresh_session : UserData :=
  { channels := 0, wav_file := none, talk_state := false, sample_count := 0 }

/-- Every session of the registry has a stream exactly when its `talk_state` is set. -/
def Consistent (p : Plugin) : Prop :=
  ∀ e ∈ p.client_map, (e.2.wav_file ≠ none ↔ e.2.talk_state = true)

/-- The 16-bit two's-complement integer that the little-endian byte pair `b0`, `b1` denotes. -/
def decode_int16 (b0 b1 : Nat) : Int :=
  if b0 + 256 * b1 < 32768 then ((b0 + 256 * b1 : Nat) : Int)
  else ((b0 + 256 * b1 : Nat) : Int) - 65536

/-- The C string held in a buffer: the characters before the first NUL. -/
def c_string (buf : List Char) : List Char :=
  buf.takeWhile (fun c => c ≠ Char.ofNat 0)

/-- The speaker a notification is about; `none` for the connection-status notification,
which is about all of them. -/
def Event.client : Event → Option Nat
  | .talk _ _ clientID => some clientID
  | .voice clientID _ _ _ => some clientID
  | .connect => none

/-- The streams closed during a run by the notifications about speaker `B`, in order: for
each such notification, what it adds to the list of closed streams. -/
def closed_by (B : Nat) (p : Plugin) : List Event → List FILE
  | [] => []
  | ev :: rest =>
    (if ev.client = some B then (step p ev).closed.drop p.closed.length else [])
      ++ closed_by B (step p ev) rest

/-- A registry that holds the session of speaker `B` alone, and no closed stream. -/
def solo (B : Nat) (session : Option UserData) : Plugin :=
  { client_map := match session with
      | some d => [(B, d)]
      | none => []
    closed := [] }

/-! ## Concrete inputs -/

/-- A session in the middle of a stereo turn: 150 sample frames counted, stream open. -/
def stereo_session : UserData :=
  { wav_file := some { name := "a.wav".toList, bytes := List.replicate 40 0, pos := 40 }
    talk_state := true
    sample_count := 150
    channels := 2 }

/-- A plugin state whose only session, of client 7, is `stereo_session`. -/
def stereo_plugin : Plugin :=
  { client_map := [(7, stereo_session)], closed := [] }

/-- Answers of the host for a talk-status notification: the local client is 1, the speaker's
identifier is "ab+c/d", the directory is /tmp, the clock shows 5 and `fopen` succeeds. -/
def talk_env : TalkEnv :=
  { my_id := 1, client_uid := some "ab+c/d".toList, soundboard := "/tmp".toList,
    time_stamp := 5, fopen_ok := true }

/-! ## Streams: writing a block of bytes -/

/-- Writing a byte inside or at the end of a stream replaces, or appends, one byte. -/
theorem fputc_eq (b : Nat) (f : FILE) (h : f.pos ≤ f.bytes.length) :
    fputc b f = { name := f.name, bytes := f.bytes.take f.pos ++ b :: f.bytes.drop (f.pos + 1),
                  pos := f.pos + 1 } := by
  unfold fputc
  split
  · next hlt => simp [List.set_eq_take_append_cons_drop, hlt]
  · next hge =>
    have he : f.pos = f.bytes.length := by omega
    simp [he]

theorem fwrite_nil (f : FILE) : fwrite [] f = f := rfl

theorem fwrite_cons (b : Nat) (bs : List Nat) (f : FILE) :
    fwrite (b :: bs) f = fwrite bs (fputc b f) := rfl

/-- Two writes in a row are one write of the concatenation. -/
theorem fwrite_append (as bs : List Nat) (f : FILE) :
    fwrite (as ++ bs) f = fwrite bs (fwrite as f) := by
  simp [fwrite, List.foldl_append]

/-- Writing a block at a position inside or at the end of a stream: the bytes before the
position stay, the block follows, then what the stream held beyond the block. -/
theorem fwrite_eq (bs : List Nat) (f : FILE) (h : f.pos ≤ f.bytes.length) :
    fwrite bs f = { name := f.name,
                    bytes := f.bytes.take f.pos ++ bs ++ f.bytes.drop (f.pos + bs.length),
                    pos := f.pos + bs.length } := by
  induction bs generalizing f with
  | nil => cases f; simp [fwrite_nil]
  | cons b bs ih =>
    rw [fwrite_cons, fputc_eq b f h]
    rw [ih]
    · simp only [List.length_cons]
      have h1 : (List.take f.pos f.bytes).length = f.pos := by simp [h]
      congr 1
      · rw [List.take_append_eq_append_take, List.drop_append_eq_append_drop, h1]
        have e1 : f.pos + 1 - f.pos = 1 := by omega
        have e2 : f.pos + 1 + bs.length - f.pos = bs.length + 1 := by omega
        rw [e1, e2]
        have e3 : List.take (f.pos + 1) (List.take f.pos f.bytes) = List.take f.pos f.bytes := by
          rw [List.take_take]; congr 1; omega
        have e4 : List.drop (f.pos + 1 + bs.length) (List.take f.pos f.bytes) = [] := by
          apply List.drop_eq_nil_of_le; rw [h1]; omega
        rw [e3, e4]
        simp [List.drop_drop]
        congr 1; omega
      · omega
    · simp [h]

/-- Writing past the end is writing at the end of the stream padded with zero bytes. -/
theorem fputc_pad (b : Nat) (f : FILE) :
    fputc b f = fputc b { f with bytes := f.bytes ++ List.replicate (f.pos - f.bytes.length) 0 } := by
  unfold fputc
  by_cases hlt : f.pos < f.bytes.length
  · have h0 : f.pos - f.bytes.length = 0 := by omega
    simp [hlt, h0]
  · simp [hlt]
    have h1 : ¬ (f.pos < f.bytes.length + (f.pos - f.bytes.length)) := by omega
    have h2 : f.pos - (f.bytes.length + (f.pos - f.bytes.length)) = 0 := by omega
    simp [h1, h2]

theorem fwrite_pad (bs : List Nat) (f : FILE) (hne : bs ≠ []) :
    fwrite bs f = fwrite bs { f with bytes := f.bytes ++ List.replicate (f.pos - f.bytes.length) 0 } := by
  cases bs with
  | nil => exact absurd rfl hne
  | cons b bs => rw [fwrite_cons, fwrite_cons, ← fputc_pad]

/-- A write advances the position by the number of bytes written. -/
theorem fwrite_pos (bs : List Nat) (f : FILE) : (fwrite bs f).pos = f.pos + bs.length := by
  induction bs generalizing f with
  | nil => rfl
  | cons b bs ih =>
    rw [fwrite_cons, ih]
    have : (fputc b f).pos = f.pos + 1 := by unfold fputc; split <;> rfl
    rw [this, List.length_cons]; omega

/-! ## Little-endian bytes -/

theorem le_bytes_length (w k : Nat) : (le_bytes w k).length = k := by
  simp [le_bytes]

theorem le_bytes_succ (w k : Nat) : le_bytes w (k + 1) = (w % 256) :: le_bytes (w / 256) k := by
  simp only [le_bytes, List.range_succ_eq_map, List.map_cons, List.map_map]
  have hb : (w >>> (8 * 0)) &&& 0xff = w % 256 := by
    have := Nat.and_pow_two_sub_one_eq_mod w 8
    simpa using this
  rw [hb]
  simp only [List.cons.injEq, true_and]
  apply List.map_congr_left
  intro i _
  have h8 : 8 * (i + 1) = 8 + 8 * i := by omega
  simp only [Function.comp, Nat.succ_eq_add_one, h8, Nat.shiftRight_add]
  congr 2
  simp [Nat.shiftRight_eq_div_pow]

theorem le_bytes_two (w : Nat) : le_bytes w 2 = [w % 256, w / 256 % 256] := by
  show le_bytes w (0 + 1 + 1) = _
  rw [le_bytes_succ, le_bytes_succ]
  rfl

theorem le_bytes_four (w : Nat) :
    le_bytes w 4 = [w % 256, w / 256 % 256, w / 256 / 256 % 256, w / 256 / 256 / 256 % 256] := by
  show le_bytes w (0 + 1 + 1 + 1 + 1) = _
  rw [le_bytes_succ, le_bytes_succ, le_bytes_succ, le_bytes_succ]
  rfl

/-- Reading back `k` little-endian bytes of `w` gives `w` modulo `256^k`. -/
theorem le_value_le_bytes (w k : Nat) : le_value (le_bytes w k) = w % 256 ^ k := by
  induction k generalizing w with
  | zero => simp [le_bytes, le_value, Nat.mod_one]
  | succ k ih =>
    rw [le_bytes_succ, le_value, ih, pow_succ', Nat.mod_mul]

/-- A non-negative value below `2^32` is unchanged by the conversion to `unsigned int`. -/
theorem to_unsigned_natCast (n : Nat) (h : n < 4294967296) : to_unsigned (n : Int) = n := by
  unfold to_unsigned
  omega

/-- The four low bytes of a number are those of its value as an `unsigned int`. -/
theorem le_bytes_four_to_unsigned (n : Nat) :
    le_bytes (to_unsigned (n : Int)) 4 = le_bytes n 4 := by
  have hu : to_unsigned (n : Int) = n % 4294967296 := by
    unfold to_unsigned
    omega
  rw [hu, le_bytes_four, le_bytes_four]
  congr 1
  · omega
  · congr 1
    · omega
    · congr 1
      · omega
      · congr 1
        omega

/-- The loop of `write_little_endian` writes the little-endian bytes of `word`. -/
theorem write_little_endian_loop_eq (word n : Nat) (f : FILE) :
    write_little_endian_loop word n f = fwrite (le_bytes word n) f := by
  induction n generalizing word f with
  | zero => rfl
  | succ m ih =>
    unfold write_little_endian_loop
    simp only []
    rw [ih]
    rw [← fwrite_append]
    congr 1
    simp only [le_bytes, List.range_succ_eq_map, List.map_cons, List.map_map]
    have hb : (word &&& 0xff) % 256 = (word >>> (8 * 0)) &&& 0xff := by
      have := Nat.and_pow_two_sub_one_eq_mod word 8
      simp at this
      simp [this]
    rw [hb]
    simp only [List.singleton_append, List.cons.injEq, true_and]
    apply List.map_congr_left
    intro i _
    simp only [Function.comp, ← Nat.shiftRight_add]
    congr 2
    omega

/-- The function `write_little_endian` is one `fwrite` of the little-endian bytes. -/
theorem write_little_endian_eq (word : Nat) (k : Nat) (f : FILE) :
    write_little_endian word (k : Int) f = fwrite (le_bytes word k) f := by
  simp [write_little_endian, write_little_endian_loop_eq]

/-! ## The header -/

theorem c_str_RIFF : c_str "RIFF" = [82, 73, 70, 70] := by decide
theorem c_str_WAVE : c_str "WAVE" = [87, 65, 86, 69] := by decide
theorem c_str_fmt : c_str "fmt " = [102, 109, 116, 32] := by decide
theorem c_str_data : c_str "data" = [100, 97, 116, 97] := by decide

/-- The stream after `write_header`: the 44 header bytes, then what the stream held beyond
offset 44. -/
theorem write_header_eq (data : UserData) (f : FILE) :
    write_header data f =
      { name := f.name
        bytes := header_bytes data.sample_count data.channels ++ f.bytes.drop 44
        pos := 44 } := by
  have e4 : ∀ w g, write_little_endian w 4 g = fwrite (le_bytes w 4) g :=
    fun w g => write_little_endian_eq w 4 g
  have e2 : ∀ w g, write_little_endian w 2 g = fwrite (le_bytes w 2) g :=
    fun w g => write_little_endian_eq w 2 g
  have u16 : to_unsigned 16 = 16 := by decide
  have u1 : to_unsigned 1 = 1 := by decide
  have u48 : to_unsigned 48000 = 48000 := by decide
  have u8 : to_unsigned (8 * 2) = 16 := by decide
  simp only [write_header, e4, e2, ← fwrite_append, u16, u1, u48, u8]
  rw [fwrite_eq _ _ (by simp [fseek])]
  simp [header_bytes, fseek, le_bytes_length, c_str_RIFF, c_str_WAVE, c_str_fmt, c_str_data]

/-- The header is 44 bytes long. -/
theorem header_bytes_length (sample_count channels : Int) :
    (header_bytes sample_count channels).length = 44 := by
  simp [header_bytes, le_bytes_length, c_str_RIFF, c_str_WAVE, c_str_fmt, c_str_data]

/-- The header leaves the stream beyond offset 44 as it was. -/
theorem write_header_drop (data : UserData) (f : FILE) :
    (write_header data f).bytes.drop 44 = f.bytes.drop 44 := by
  rw [write_header_eq]
  exact List.drop_left' (header_bytes_length _ _)

/-- The session after `end_talk_state`: only `sample_count` is kept. -/
theorem end_talk_state_fst (data : UserData) (closed : List FILE) :
    (end_talk_state data closed).1
      = { wav_file := none, talk_state := false, sample_count := data.sample_count,
          channels := 0 } := rfl

/-- The streams closed by `end_talk_state`: the session's stream, with its header, when the
session is Recording, and none otherwise. -/
theorem end_talk_state_snd (data : UserData) (closed : List FILE) :
    (end_talk_state data closed).2
      = closed ++ (if data.talk_state then
          (data.wav_file.map (write_header data)).toList else []) := by
  unfold end_talk_state
  cases h : data.wav_file <;> cases h2 : data.talk_state <;> simp

/-! ## The registry -/

theorem hashmap_store_cons (k : Nat) (w : UserData) (rest : hashmap) (key : Nat)
    (v : UserData) :
    hashmap_store ((k, w) :: rest) key v
      = (if k = key then (k, v) else (k, w)) :: hashmap_store rest key v := rfl

theorem hashmap_get_cons (k : Nat) (w : UserData) (rest : hashmap) (key : Nat) :
    hashmap_get ((k, w) :: rest) key = if k = key then some w else hashmap_get rest key := rfl

/-- After an assignment through the session pointer of `key`, the map yields the new value. -/
theorem hashmap_get_store_same (map : hashmap) (key : Nat) (v d : UserData)
    (h : hashmap_get map key = some d) : hashmap_get (hashmap_store map key v) key = some v := by
  induction map with
  | nil => simp [hashmap_get] at h
  | cons e rest ih =>
    obtain ⟨k, w⟩ := e
    rw [hashmap_store_cons]
    by_cases hk : k = key
    · rw [if_pos hk, hashmap_get_cons, if_pos hk]
    · rw [hashmap_get_cons, if_neg hk] at h
      rw [if_neg hk, hashmap_get_cons, if_neg hk, ih h]

/-- An assignment through the session pointer of `key` leaves other keys alone. -/
theorem hashmap_get_store_other (map : hashmap) (key k' : Nat) (v : UserData)
    (h : k' ≠ key) : hashmap_get (hashmap_store map key v) k' = hashmap_get map k' := by
  induction map with
  | nil => rfl
  | cons e rest ih =>
    obtain ⟨k, w⟩ := e
    rw [hashmap_store_cons]
    by_cases hk : k = key
    · have hk' : ¬ k = k' := by omega
      rw [if_pos hk, hashmap_get_cons, hashmap_get_cons, if_neg hk', if_neg hk', ih]
    · rw [if_neg hk, hashmap_get_cons, hashmap_get_cons, ih]

theorem mem_hashmap_store (map : hashmap) (key : Nat) (v : UserData) (e : Nat × UserData)
    (h : e ∈ hashmap_store map key v) : e ∈ map ∨ (e.1 = key ∧ e.2 = v) := by
  simp only [hashmap_store, List.mem_map] at h
  obtain ⟨a, ha, rfl⟩ := h
  by_cases hk : a.1 = key
  · right; simp [hk]
  · left; simpa [hk] using ha

theorem mem_lookup_or_create (map : hashmap) (clientID : Nat) (e : Nat × UserData)
    (h : e ∈ (lookup_or_create map clientID).1) : e ∈ map ∨ e = (clientID, fresh_session) := by
  unfold lookup_or_create at h
  split at h
  · exact Or.inl h
  · simp only [hashmap_put, List.mem_cons, List.mem_filter] at h
    rcases h with h | h
    · exact Or.inr h
    · exact Or.inl h.1

/-- The teardown loop closes the stream of each Recording session, in iteration order. -/
theorem hashmap_iter_remove_user (map : hashmap) (closed : List FILE) :
    hashmap_iter map remove_user closed
      = closed ++ map.filterMap (fun e =>
          if e.2.talk_state then e.2.wav_file.map (write_header e.2) else none) := by
  induction map generalizing closed with
  | nil => simp [hashmap_iter]
  | cons e rest ih =>
    have hcons : hashmap_iter (e :: rest) remove_user closed
        = hashmap_iter rest remove_user (remove_user closed e.1 e.2) := rfl
    rw [hcons, ih, remove_user, end_talk_state_snd]
    cases h1 : e.2.talk_state <;> cases h2 : e.2.wav_file <;> simp [List.filterMap_cons, h1, h2]

/-! ## The invariant of the turn lifecycle -/

/-- A talk-status notification leaves its session with a stream exactly when `talk_state` is
set. -/
theorem talk_status_body_consistent (env : TalkEnv) (status : Int) (clientID : Nat)
    (data : UserData) (closed : List FILE) :
    ((talk_status_body env status clientID data closed).1.wav_file ≠ none ↔
      (talk_status_body env status clientID data closed).1.talk_state = true) := by
  unfold talk_status_body
  split
  · split
    · next hc =>
      split
      · dsimp only
        split
        · split
          · simp
          · simp [hc.1]
        · simp [end_talk_state_fst]
      · simp [end_talk_state_fst]
    · simp [end_talk_state_fst]
  · simp [end_talk_state_fst]

/-- Every notification preserves the invariant. -/
theorem step_consistent (p : Plugin) (ev : Event) (h : Consistent p) : Consistent (step p ev) := by
  cases ev with
  | talk env status clientID =>
    intro e he
    simp only [step, ts3plugin_onTalkStatusChangeEvent] at he
    rcases mem_hashmap_store _ _ _ _ he with h1 | ⟨_, h2⟩
    · rcases mem_lookup_or_create _ _ _ h1 with h3 | h3
      · exact h e h3
      · rw [h3]; simp [fresh_session]
    · rw [h2]
      exact talk_status_body_consistent _ _ _ _ _
  | voice clientID samples sampleCount channels =>
    intro e he
    simp only [step, ts3plugin_onEditPlaybackVoiceDataEvent] at he
    split at he
    · next data hget =>
      split at he
      · next htalk =>
        split at he
        · next f hfile =>
          split at he
          · rcases mem_hashmap_store _ _ _ _ he with h1 | ⟨_, h2⟩
            · exact h e h1
            · rw [h2]; simp [end_talk_state_fst]
          · rcases mem_hashmap_store _ _ _ _ he with h1 | ⟨_, h2⟩
            · exact h e h1
            · rw [h2]; simp [htalk]
        · exact h e he
      · exact h e he
    · exact h e he
  | connect =>
    intro e he
    simp [step, ts3plugin_onConnectStatusChangeEvent, hashmap_clear] at he

theorem run_consistent (events : List Event) (p : Plugin) (h : Consistent p) :
    Consistent (run p events) := by
  induction events generalizing p with
  | nil => exact h
  | cons ev rest ih => exact ih (step p ev) (step_consistent p ev h)

/-! ## Talk-status notifications, seen from the registry -/

/-- Removing the entries of one key leaves the lookups of other keys alone. -/
theorem hashmap_get_filter_other (map : hashmap) (key k' : Nat) (h : k' ≠ key) :
    hashmap_get (map.filter (fun e => e.1 ≠ key)) k' = hashmap_get map k' := by
  induction map with
  | nil => rfl
  | cons e rest ih =>
    obtain ⟨k, w⟩ := e
    rw [hashmap_get_cons]
    by_cases hk : k = key
    · have hk' : ¬ k = k' := by omega
      have hf : List.filter (fun e : Nat × UserData => decide (e.1 ≠ key)) ((k, w) :: rest)
          = List.filter (fun e : Nat × UserData => decide (e.1 ≠ key)) rest := by
        simp [List.filter_cons, hk]
      rw [hf, ih, if_neg hk']
    · have hf : List.filter (fun e : Nat × UserData => decide (e.1 ≠ key)) ((k, w) :: rest)
          = (k, w) :: List.filter (fun e : Nat × UserData => decide (e.1 ≠ key)) rest := by
        simp [List.filter_cons, hk]
      rw [hf, hashmap_get_cons, ih]

/-- The session that `lookup_or_create` hands to the handler is the one the map holds. -/
theorem hashmap_get_lookup_or_create_same (map : hashmap) (clientID : Nat) :
    hashmap_get (lookup_or_create map clientID).1 clientID
      = some (lookup_or_create map clientID).2 := by
  unfold lookup_or_create
  split
  · next d h => exact h
  · simp [hashmap_put, hashmap_get_cons]

/-- Creating the session of one client leaves the sessions of other clients alone. -/
theorem hashmap_get_lookup_or_create_other (map : hashmap) (clientID k : Nat)
    (h : k ≠ clientID) :
    hashmap_get (lookup_or_create map clientID).1 k = hashmap_get map k := by
  unfold lookup_or_create
  split
  · rfl
  · have hne : ¬ clientID = k := by omega
    simp only [hashmap_put, hashmap_get_cons, if_neg hne]
    exact hashmap_get_filter_other map clientID k h

/-- The session found by `lookup_or_create`: the stored one, or a new zero session. -/
theorem lookup_or_create_snd (map : hashmap) (clientID : Nat) :
    (lookup_or_create map clientID).2
      = (hashmap_get map clientID).getD fresh_session := by
  unfold lookup_or_create
  split
  · next d h => simp [h]
  · next h => simp [h, fresh_session]

/-- A talk-status notification, seen from the registry: the session of the speaker becomes
what `talk_status_body` makes of it, the closed streams are those of `talk_status_body`,
and the sessions of other clients are as before. -/
theorem talk_event_eq (env : TalkEnv) (status : Int) (clientID : Nat) (p : Plugin) :
    hashmap_get (ts3plugin_onTalkStatusChangeEvent env status clientID p).client_map clientID
      = some (talk_status_body env status clientID
          ((hashmap_get p.client_map clientID).getD fresh_session) p.closed).1 ∧
    (ts3plugin_onTalkStatusChangeEvent env status clientID p).closed
      = (talk_status_body env status clientID
          ((hashmap_get p.client_map clientID).getD fresh_session) p.closed).2 ∧
    (∀ k, k ≠ clientID →
      hashmap_get (ts3plugin_onTalkStatusChangeEvent env status clientID p).client_map k
        = hashmap_get p.client_map k) := by
  have hstep : ts3plugin_onTalkStatusChangeEvent env status clientID p
      = { client_map := hashmap_store (lookup_or_create p.client_map clientID).1 clientID
            (talk_status_body env status clientID (lookup_or_create p.client_map clientID).2
              p.closed).1
          closed := (talk_status_body env status clientID
            (lookup_or_create p.client_map clientID).2 p.closed).2 } := rfl
  rw [hstep, lookup_or_create_snd]
  refine ⟨?_, rfl, ?_⟩
  · exact hashmap_get_store_same _ _ _ _ (by
      rw [hashmap_get_lookup_or_create_same])
  · intro k hk
    rw [hashmap_get_store_other _ _ _ _ hk, hashmap_get_lookup_or_create_other _ _ _ hk]

/-- Every entry of the registry after a talk-status notification is an entry from before, the
zero session just created for the speaker, or the speaker's session as the handler left it. -/
theorem mem_talk_event (env : TalkEnv) (status : Int) (clientID : Nat) (p : Plugin)
    (e : Nat × UserData)
    (he : e ∈ (ts3plugin_onTalkStatusChangeEvent env status clientID p).client_map) :
    e ∈ p.client_map ∨ e = (clientID, fresh_session) ∨
      e.2 = (talk_status_body env status clientID
        ((hashmap_get p.client_map clientID).getD fresh_session) p.closed).1 := by
  have hstep : ts3plugin_onTalkStatusChangeEvent env status clientID p
      = { client_map := hashmap_store (lookup_or_create p.client_map clientID).1 clientID
            (talk_status_body env status clientID (lookup_or_create p.client_map clientID).2
              p.closed).1
          closed := (talk_status_body env status clientID
            (lookup_or_create p.client_map clientID).2 p.closed).2 } := rfl
  rw [hstep, lookup_or_create_snd] at he
  rcases mem_hashmap_store _ _ _ _ he with h | ⟨_, h⟩
  · rcases mem_lookup_or_create _ _ _ h with h1 | h1
    · exact Or.inl h1
    · exact Or.inr (Or.inl h1)
  · exact Or.inr (Or.inr h)

/-- When the guard of `ts3plugin_onEditPlaybackVoiceDataEvent` fails (no session, `talk_state`
clear, or no stream), the handler does nothing. -/
theorem voice_guard_fails (clientID : Nat) (samples : List Int) (sampleCount channels : Int)
    (p : Plugin)
    (hidle : ∀ d, hashmap_get p.client_map clientID = some d →
      d.talk_state = false ∨ d.wav_file = none) :
    ts3plugin_onEditPlaybackVoiceDataEvent clientID samples sampleCount channels p = p := by
  unfold ts3plugin_onEditPlaybackVoiceDataEvent
  split
  · next d hd =>
    rcases hidle d hd with h | h
    · simp [h]
    · simp [h]
  · rfl

/-! ## The identifier encoder -/

/-- The `switch` never leaves a '+' or a '/'. -/
theorem encode_base64_switch_safe (c : Char) :
    encode_base64_switch c ≠ '+' ∧ encode_base64_switch c ≠ '/' := by
  unfold encode_base64_switch
  split
  · exact ⟨by decide, by decide⟩
  · split
    · exact ⟨by decide, by decide⟩
    · next h1 h2 => exact ⟨h1, h2⟩

/-- The `switch` never writes a NUL. -/
theorem encode_base64_switch_ne_nul (c : Char) (h : c ≠ Char.ofNat 0) :
    encode_base64_switch c ≠ Char.ofNat 0 := by
  unfold encode_base64_switch
  split
  · decide
  · split
    · decide
    · exact h

theorem encode_base64_switch_idem (c : Char) :
    encode_base64_switch (encode_base64_switch c) = encode_base64_switch c := by
  have h := encode_base64_switch_safe c
  generalize encode_base64_switch c = d at h
  simp [encode_base64_switch, h.1, h.2]

/-- A second pass of the loop changes nothing. -/
theorem encode_base64_loop_idem (s : List Char) :
    encode_base64_loop (encode_base64_loop s) = encode_base64_loop s := by
  induction s with
  | nil => rfl
  | cons c rest ih =>
    by_cases hc : c = Char.ofNat 0
    · simp [encode_base64_loop, hc]
    · simp [encode_base64_loop, hc, encode_base64_switch_ne_nul c hc,
        encode_base64_switch_idem, ih]

/-- After the loop the string in the buffer has no '+' and no '/'. -/
theorem encode_base64_loop_safe (s : List Char) :
    ∀ c ∈ c_string (encode_base64_loop s), c ≠ '+' ∧ c ≠ '/' := by
  induction s with
  | nil => intro c hc; simp [encode_base64_loop, c_string] at hc
  | cons a rest ih =>
    intro c hc
    by_cases ha : a = Char.ofNat 0
    · simp [encode_base64_loop, ha, c_string] at hc
    · simp only [encode_base64_loop, ha, if_false, c_string, List.takeWhile_cons,
        encode_base64_switch_ne_nul a ha, ne_eq, not_false_eq_true, decide_True, if_true,
        List.mem_cons] at hc
      rcases hc with h | h
      · rw [h]; exact encode_base64_switch_safe a
      · exact ih c h

/-- The loop leaves a string without '+' and '/' as it is. -/
theorem encode_base64_loop_fixed (s : List Char) (h : ∀ c ∈ s, c ≠ '+' ∧ c ≠ '/') :
    encode_base64_loop s = s := by
  induction s with
  | nil => rfl
  | cons a rest ih =>
    have ha := h a (List.mem_cons_self _ _)
    have hr := ih (fun c hc => h c (List.mem_cons_of_mem _ hc))
    by_cases hz : a = Char.ofNat 0
    · simp [encode_base64_loop, hz]
    · simp [encode_base64_loop, hz, encode_base64_switch, ha.1, ha.2, hr]

theorem encode_base64_loop_safe_all (s : List Char) (hs : ∀ c ∈ s, c ≠ Char.ofNat 0) :
    ∀ c ∈ encode_base64_loop s, c ≠ '+' ∧ c ≠ '/' := by
  induction s with
  | nil => intro c hc; simp [encode_base64_loop] at hc
  | cons a rest ih =>
    intro c hc
    have ha := hs a (List.mem_cons_self _ _)
    simp only [encode_base64_loop, ha, if_false, List.mem_cons] at hc
    rcases hc with h | h
    · rw [h]; exact encode_base64_switch_safe a
    · exact ih (fun c hc => hs c (List.mem_cons_of_mem _ hc)) c h

/-! ## Independence of the speakers -/

theorem hashmap_get_solo (B : Nat) (session : Option UserData) :
    hashmap_get (solo B session).client_map B = session := by
  cases session <;> simp [solo, hashmap_get]

/-- The list of closed streams is only threaded through `end_talk_state`. -/
theorem end_talk_state_closed (d : UserData) (c : List FILE) :
    end_talk_state d c = ((end_talk_state d []).1, c ++ (end_talk_state d []).2) := by
  have h1 := end_talk_state_snd d c
  have h2 := end_talk_state_snd d []
  rw [List.nil_append] at h2
  rw [← h2] at h1
  exact Prod.ext rfl h1

/-- The list of closed streams is only threaded through `talk_status_body`. -/
theorem talk_status_body_closed (env : TalkEnv) (status : Int) (clientID : Nat) (d : UserData)
    (c : List FILE) :
    talk_status_body env status clientID d c
      = ((talk_status_body env status clientID d []).1,
         c ++ (talk_status_body env status clientID d []).2) := by
  unfold talk_status_body
  split
  · split
    · split
      · dsimp only
        split
        · split <;> simp
        · exact end_talk_state_closed d c
      · exact end_talk_state_closed d c
    · exact end_talk_state_closed d c
  · exact end_talk_state_closed d c

/-- A notification about speaker `B` acts on `B`'s session as it would in a registry that
holds this session alone, and appends to the closed streams what it would close there. -/
theorem step_solo (ev : Event) (B : Nat) (h : ev.client = some B) (p : Plugin) :
    hashmap_get (step p ev).client_map B
      = hashmap_get (step (solo B (hashmap_get p.client_map B)) ev).client_map B ∧
    (step p ev).closed
      = p.closed ++ (step (solo B (hashmap_get p.client_map B)) ev).closed := by
  cases ev with
  | talk env status clientID =>
    simp only [Event.client, Option.some.injEq] at h
    subst h
    obtain ⟨h1, h2, _⟩ := talk_event_eq env status clientID p
    obtain ⟨h3, h4, _⟩ := talk_event_eq env status clientID
      (solo clientID (hashmap_get p.client_map clientID))
    simp only [step]
    rw [h1, h2, h3, h4, hashmap_get_solo, talk_status_body_closed]
    simp [solo]
  | voice clientID samples sampleCount channels =>
    simp only [Event.client, Option.some.injEq] at h
    subst h
    simp only [step, ts3plugin_onEditPlaybackVoiceDataEvent, hashmap_get_solo]
    cases hd : hashmap_get p.client_map clientID with
    | none => simp [hd, solo, hashmap_get]
    | some d =>
      have hs : hashmap_get (solo clientID (some d)).client_map clientID = some d :=
        hashmap_get_solo clientID (some d)
      dsimp only
      split
      · cases hf : d.wav_file with
        | none => simp [hd, solo, hashmap_get]
        | some f =>
          dsimp only
          split
          · rw [end_talk_state_closed d p.closed, end_talk_state_closed d (solo _ _).closed]
            dsimp only
            rw [hashmap_get_store_same _ _ _ _ hd, hashmap_get_store_same _ _ _ _ hs]
            simp [solo]
          · dsimp only
            rw [hashmap_get_store_same _ _ _ _ hd, hashmap_get_store_same _ _ _ _ hs]
            simp [solo]
      · simp [hd, solo, hashmap_get]
  | connect => simp [Event.client] at h

/-- A notification about another speaker leaves the session of `B` as it was. -/
theorem step_other (ev : Event) (A B : Nat) (h : ev.client = some A) (hAB : A ≠ B)
    (p : Plugin) : hashmap_get (step p ev).client_map B = hashmap_get p.client_map B := by
  have hBA : B ≠ A := fun e => hAB e.symm
  cases ev with
  | talk env status clientID =>
    simp only [Event.client, Option.some.injEq] at h
    subst h
    exact (talk_event_eq env status clientID p).2.2 B hBA
  | voice clientID samples sampleCount channels =>
    simp only [Event.client, Option.some.injEq] at h
    subst h
    simp only [step, ts3plugin_onEditPlaybackVoiceDataEvent]
    split
    · split
      · split
        · split
          · exact hashmap_get_store_other _ _ _ _ hBA
          · exact hashmap_get_store_other _ _ _ _ hBA
        · rfl
      · rfl
    · rfl
  | connect => simp [Event.client] at h

/-- No notification removes or changes a stream that is already closed. -/
theorem step_closed_prefix (ev : Event) (p : Plugin) :
    ∃ extra, (step p ev).closed = p.closed ++ extra := by
  cases ev with
  | talk env status clientID =>
    exact ⟨_, (step_solo (.talk env status clientID) clientID rfl p).2⟩
  | voice clientID samples sampleCount channels =>
    exact ⟨_, (step_solo (.voice clientID samples sampleCount channels) clientID rfl p).2⟩
  | connect => exact ⟨_, hashmap_iter_remove_user p.client_map p.closed⟩

/-- No run removes or changes a stream that is already closed. -/
theorem run_closed_prefix (evs : List Event) (p : Plugin) :
    ∃ extra, (run p evs).closed = p.closed ++ extra := by
  induction evs generalizing p with
  | nil => exact ⟨[], by simp [run]⟩
  | cons ev rest ih =>
    obtain ⟨x, hx⟩ := step_closed_prefix ev p
    obtain ⟨y, hy⟩ := ih (step p ev)
    exact ⟨x ++ y, by
      have : run p (ev :: rest) = run (step p ev) rest := rfl
      rw [this, hy, hx, List.append_assoc]⟩

/-- In a run of notifications about `B` alone, the streams closed by `B` are all the streams
closed. -/
theorem closed_by_own (B : Nat) (evs : List Event) (p : Plugin)
    (h : ∀ ev ∈ evs, ev.client = some B) :
    closed_by B p evs = (run p evs).closed.drop p.closed.length := by
  induction evs generalizing p with
  | nil => simp [closed_by, run]
  | cons ev rest ih =>
    have hev := h ev (List.mem_cons_self _ _)
    have hrest := ih (step p ev) (fun e he => h e (List.mem_cons_of_mem _ he))
    obtain ⟨x, hx⟩ := step_closed_prefix ev p
    obtain ⟨y, hy⟩ := run_closed_prefix rest (step p ev)
    have hrun : run p (ev :: rest) = run (step p ev) rest := rfl
    rw [closed_by, if_pos hev, hrest, hrun, hy, hx]
    simp [List.append_assoc]

/-- The session of `B` and the streams closed by `B` in a run are those of the run of `B`'s
own notifications, started from any registry that holds the same session for `B`. -/
theorem run_filter (B : Nat) (evs : List Event) (p q : Plugin)
    (hevs : ∀ ev ∈ evs, ev.client ≠ none)
    (hpq : hashmap_get p.client_map B = hashmap_get q.client_map B) :
    hashmap_get (run p evs).client_map B
      = hashmap_get (run q (evs.filter (fun ev => decide (ev.client = some B)))).client_map B ∧
    closed_by B p evs
      = closed_by B q (evs.filter (fun ev => decide (ev.client = some B))) := by
  induction evs generalizing p q with
  | nil => exact ⟨hpq, rfl⟩
  | cons ev rest ih =>
    have hrest : ∀ e ∈ rest, e.client ≠ none := fun e he => hevs e (List.mem_cons_of_mem _ he)
    have hrun : run p (ev :: rest) = run (step p ev) rest := rfl
    by_cases hB : ev.client = some B
    · have hf : (ev :: rest).filter (fun ev => decide (ev.client = some B))
          = ev :: rest.filter (fun ev => decide (ev.client = some B)) := by
        simp [List.filter_cons, hB]
      have hp := step_solo ev B hB p
      have hq := step_solo ev B hB q
      have hpq' : hashmap_get (step p ev).client_map B = hashmap_get (step q ev).client_map B := by
        rw [hp.1, hq.1, hpq]
      have hih := ih (step p ev) (step q ev) hrest hpq'
      have hrunq : run q (ev :: rest.filter (fun ev => decide (ev.client = some B)))
          = run (step q ev) (rest.filter (fun ev => decide (ev.client = some B))) := rfl
      rw [hf, hrun, hrunq]
      refine ⟨hih.1, ?_⟩
      rw [closed_by, closed_by, if_pos hB, if_pos hB, hih.2, hp.2, hq.2, hpq]
      simp
    · have hf : (ev :: rest).filter (fun ev => decide (ev.client = some B))
          = rest.filter (fun ev => decide (ev.client = some B)) := by
        simp [List.filter_cons, hB]
      cases hc : ev.client with
      | none => exact absurd hc (hevs ev (List.mem_cons_self _ _))
      | some A =>
        have hAB : A ≠ B := by
          intro e
          rw [hc, e] at hB
          exact hB rfl
        have hpq' : hashmap_get (step p ev).client_map B = hashmap_get q.client_map B := by
          rw [step_other ev A B hc hAB p, hpq]
        have hih := ih (step p ev) q hrest hpq'
        rw [hf, hrun]
        refine ⟨hih.1, ?_⟩
        rw [closed_by, if_neg (by rw [hc]; intro e; exact hAB (Option.some.inj e)), hih.2]
        simp

/-! ## Claims -/

set_option maxRecDepth 1000000

/-- C1 (the code departs from the claim): a turn of client 7 with one batch of six mono
samples 1..6.  After the batch the stream holds the twelve sample bytes from offset 36 on;
`end_talk_state` then writes its 44 header bytes from offset 0, over the first eight of
them, so the finished file is the header followed by the bytes of samples 5 and 6 only, not
the header followed by the bytes of all six samples. -/
theorem header_overwrites_first_samples :
    (hashmap_get (run ts3plugin_init
        [.talk talk_env STATUS_TALKING 7, .voice 7 [1, 2, 3, 4, 5, 6] 6 1]).client_map 7).map
      (fun d => d.wav_file.map FILE.bytes)
      = some (some (List.replicate 36 0 ++ [1, 0, 2, 0, 3, 0, 4, 0, 5, 0, 6, 0])) ∧
    (run ts3plugin_init
        [.talk talk_env STATUS_TALKING 7, .voice 7 [1, 2, 3, 4, 5, 6] 6 1,
         .talk talk_env 0 7]).closed.map FILE.bytes
      = [header_bytes 6 1 ++ [5, 0, 6, 0]] ∧
    (run ts3plugin_init
        [.talk talk_env STATUS_TALKING 7, .voice 7 [1, 2, 3, 4, 5, 6] 6 1,
         .talk talk_env 0 7]).closed.map FILE.bytes
      ≠ [header_bytes 6 1 ++ [1, 0, 2, 0, 3, 0, 4, 0, 5, 0, 6, 0]] := by
  decide

/-- C2 (the code departs from the claim): a batch of 3 sample frames on 2 channels (six
values 1..6) delivered to a Recording session.  The loop runs `sampleCount = 3` times, so
the stream receives three two-byte values (1, 2, 3), not `3*2 = 6`, while `sample_count`
becomes 3 and `channels` 2; the header written at the end of the turn then announces
`2*3*2 = 12` bytes of data although 6 payload bytes were written. -/
theorem voice_writes_one_value_per_frame :
    (hashmap_get (run ts3plugin_init
        [.talk talk_env STATUS_TALKING 7, .voice 7 [1, 2, 3, 4, 5, 6] 3 2]).client_map 7).map
      (fun d => (d.wav_file.map FILE.bytes, d.sample_count, d.channels))
      = some (some (List.replicate 36 0 ++ [1, 0, 2, 0, 3, 0]), 3, 2) ∧
    (run ts3plugin_init
        [.talk talk_env STATUS_TALKING 7, .voice 7 [1, 2, 3, 4, 5, 6] 3 2,
         .talk talk_env 0 7]).closed.map (fun g => le_value ((g.bytes.drop 40).take 4))
      = [12] := by
  decide

/-- C3 (the code departs from the claim): client 7 speaks twice.  The first turn delivers one
batch (100 frames, 2 channels); the second turn delivers the batches (100 frames, 2 channels)
and (50 frames, 2 channels).  The header of the first file has data size 400 and outer size
436; the header of the second file has data size 1000 and outer size 1036, not 600 and 636,
because `sample_count` still holds the 100 frames of the first turn. -/
theorem second_turn_counts_first_turn :
    (run ts3plugin_init
        [.talk talk_env STATUS_TALKING 7, .voice 7 (List.replicate 200 0) 100 2,
         .talk talk_env 0 7,
         .talk talk_env STATUS_TALKING 7, .voice 7 (List.replicate 200 0) 100 2,
         .voice 7 (List.replicate 100 0) 50 2, .talk talk_env 0 7]).closed.map
      (fun g => (le_value ((g.bytes.drop 40).take 4), le_value ((g.bytes.drop 4).take 4)))
      = [(400, 436), (1000, 1036)] := by
  decide

/-- C4 (the code departs from the claim): on the string "ab+c/d" the function `encode_base64`
returns 0 and leaves "ab_c_d": the '+' has become '_', not '-' as the claim says
("ab-c_d"), because `case '+'` falls through into `case '/'`. -/
theorem encode_base64_plus_becomes_underscore :
    encode_base64 "ab+c/d".toList = (0, "ab_c_d".toList) ∧
    (encode_base64 "ab+c/d".toList).2 ≠ "ab-c_d".toList := by
  decide

/-- C5: for every unsigned 32-bit value `w` and every width `k` with `1 ≤ k ≤ 4`,
`write_little_endian(w, k, stream)` advances the stream position by exactly `k`, the byte at
offset `i` from the old position (`i < k`) is `(w >> 8*i) & 0xff`, and on a stream positioned
at its end the new contents are the old contents followed by exactly these `k` bytes. -/
theorem write_little_endian_appends (w k : Nat) (f : FILE)
    (_hw : w < 2 ^ 32) (hk1 : 1 ≤ k) (_hk4 : k ≤ 4) :
    (write_little_endian w (k : Int) f).pos = f.pos + k ∧
    (∀ i, i < k →
      (write_little_endian w (k : Int) f).bytes[f.pos + i]? = some ((w >>> (8 * i)) &&& 0xff)) ∧
    (f.pos = f.bytes.length →
      (write_little_endian w (k : Int) f).bytes = f.bytes ++ le_bytes w k) := by
  rw [write_little_endian_eq]
  have hne : le_bytes w k ≠ [] := by
    intro h
    have := le_bytes_length w k
    rw [h] at this
    simp at this
    omega
  refine ⟨?_, ?_, ?_⟩
  · rw [fwrite_pos, le_bytes_length]
  · intro i hi
    rw [fwrite_pad _ _ hne, fwrite_eq]
    · simp only [le_bytes_length]
      have hlen : (List.take f.pos (f.bytes ++ List.replicate (f.pos - f.bytes.length) 0)).length
          = f.pos := by
        simp; omega
      rw [List.append_assoc, List.getElem?_append_right (by omega), hlen]
      have : f.pos + i - f.pos = i := by omega
      rw [this, List.getElem?_append_left (by rw [le_bytes_length]; exact hi)]
      simp [le_bytes, hi]
    · simp; omega
  · intro hpos
    rw [fwrite_eq _ _ (by omega)]
    simp [hpos]

/-- C5, at a concrete input: the four bytes of 0x12345678 appended to a two-byte stream. -/
theorem write_little_endian_appends_witness :
    (write_little_endian 0x12345678 ((4 : Nat) : Int) ⟨[], [1, 2], 2⟩).pos = 2 + 4 ∧
    (∀ i, i < 4 →
      (write_little_endian 0x12345678 ((4 : Nat) : Int) ⟨[], [1, 2], 2⟩).bytes[2 + i]?
        = some ((0x12345678 >>> (8 * i)) &&& 0xff)) ∧
    ((2 : Nat) = [1, 2].length →
      (write_little_endian 0x12345678 ((4 : Nat) : Int) ⟨[], [1, 2], 2⟩).bytes
        = [1, 2] ++ le_bytes 0x12345678 4) :=
  write_little_endian_appends 0x12345678 4 ⟨[], [1, 2], 2⟩ (by decide) (by decide) (by decide)

/-- C6: for a Recording session with channel count `C` and sample count `S` whose values fit
their field widths, `end_talk_state` closes the stream after writing a header of exactly 44
bytes at offset 0: "RIFF" at offsets 0..3, and at offsets 8..43 the tags "WAVE", "fmt ", then
16 on 4 bytes, 1 on 2 bytes, `C` on 2 bytes, 48000 on 4 bytes, `48000*C*2` on 4 bytes, `C*2` on
2 bytes, 16 on 2 bytes, the tag "data" and `2*S*C` on 4 bytes, all little-endian (the bytes
at the field offsets decode to these numbers); the stream beyond offset 44 is untouched. -/
theorem end_talk_state_writes_header (data : UserData) (f : FILE) (closed : List FILE)
    (C S : Nat) (hfile : data.wav_file = some f) (htalk : data.talk_state = true)
    (hC : data.channels = (C : Int)) (hS : data.sample_count = (S : Int))
    (hC16 : C * 2 < 2 ^ 16) (hdata : 2 * S * C < 2 ^ 32) :
    (end_talk_state data closed).2 = closed ++ [write_header data f] ∧
    (write_header data f).pos = 44 ∧
    (write_header data f).bytes.take 4 = c_str "RIFF" ∧
    ((write_header data f).bytes.drop 8).take 36 =
      c_str "WAVE" ++ c_str "fmt " ++ le_bytes 16 4 ++ le_bytes 1 2 ++ le_bytes C 2
        ++ le_bytes 48000 4 ++ le_bytes (48000 * C * 2) 4 ++ le_bytes (C * 2) 2
        ++ le_bytes 16 2 ++ c_str "data" ++ le_bytes (2 * S * C) 4 ∧
    (write_header data f).bytes.drop 44 = f.bytes.drop 44 ∧
    le_value (((write_header data f).bytes.drop 22).take 2) = C ∧
    le_value (((write_header data f).bytes.drop 28).take 4) = 48000 * C * 2 ∧
    le_value (((write_header data f).bytes.drop 32).take 2) = C * 2 ∧
    le_value (((write_header data f).bytes.drop 40).take 4) = 2 * S * C := by
  have uC : to_unsigned (C : Int) = C := to_unsigned_natCast C (by omega)
  have uR : to_unsigned (48000 * (C : Int) * 2) = 48000 * C * 2 := by
    have := to_unsigned_natCast (48000 * C * 2) (by omega)
    push_cast at this
    exact this
  have uB : to_unsigned ((C : Int) * 2) = C * 2 := by
    have := to_unsigned_natCast (C * 2) (by omega)
    push_cast at this
    exact this
  have uD : to_unsigned (2 * (S : Int) * (C : Int)) = 2 * S * C := by
    have := to_unsigned_natCast (2 * S * C) (by omega)
    push_cast at this
    exact this
  have hbytes := congrArg FILE.bytes (write_header_eq data f)
  have hpos := congrArg FILE.pos (write_header_eq data f)
  simp only [header_bytes, hC, hS, uC, uR, uB, uD] at hbytes hpos
  refine ⟨?_, hpos, ?_, ?_, ?_, ?_, ?_, ?_, ?_⟩
  · simp [end_talk_state, hfile, htalk]
  all_goals rw [hbytes]
  all_goals simp only [le_bytes_two, le_bytes_four, c_str_RIFF, c_str_WAVE, c_str_fmt, c_str_data,
      List.cons_append, List.nil_append, List.append_assoc]
  · rfl
  · rfl
  · rfl
  · show le_value [C % 256, C / 256 % 256] = C
    simp only [le_value]; omega
  · show le_value [48000 * C * 2 % 256, 48000 * C * 2 / 256 % 256,
      48000 * C * 2 / 256 / 256 % 256, 48000 * C * 2 / 256 / 256 / 256 % 256] = 48000 * C * 2
    simp only [le_value]; omega
  · show le_value [C * 2 % 256, C * 2 / 256 % 256] = C * 2
    simp only [le_value]; omega
  · show le_value [2 * S * C % 256, 2 * S * C / 256 % 256,
      2 * S * C / 256 / 256 % 256, 2 * S * C / 256 / 256 / 256 % 256] = 2 * S * C
    simp only [le_value]
    generalize 2 * S * C = n at hdata ⊢
    omega

/-- C6, at a concrete input: a stereo session with 150 sample frames. -/
theorem end_talk_state_writes_header_witness :
    (end_talk_state stereo_session []).2
      = [write_header stereo_session ⟨"a.wav".toList, List.replicate 40 0, 40⟩] ∧
    le_value (((write_header stereo_session
      ⟨"a.wav".toList, List.replicate 40 0, 40⟩).bytes.drop 40).take 4) = 2 * 150 * 2 :=
  have h := end_talk_state_writes_header stereo_session
    ⟨"a.wav".toList, List.replicate 40 0, 40⟩ [] 2 150 rfl rfl rfl rfl (by decide) (by decide)
  ⟨h.1, h.2.2.2.2.2.2.2.2⟩

/-- C7: when a Recording session has its channel count set to `C > 0`, a sample delivery
with another channel count writes none of the batch to the stream: the stream is closed
once, holding the header computed from the sample count accumulated before the batch and
from `C`, followed by what the stream held beyond offset 44 before the batch.  The session
is left Idle with no stream (its sample count untouched), no other session changes, and no
stream is opened: whoever holds a stream afterwards held it before. -/
theorem voice_channel_mismatch_aborts (p : Plugin) (clientID : Nat) (samples : List Int)
    (sampleCount channels : Int) (data : UserData) (f : FILE)
    (hget : hashmap_get p.client_map clientID = some data)
    (htalk : data.talk_state = true) (hfile : data.wav_file = some f)
    (hset : data.channels > 0) (hne : channels ≠ data.channels) :
    (ts3plugin_onEditPlaybackVoiceDataEvent clientID samples sampleCount channels p).closed
      = p.closed ++ [{ name := f.name
                       bytes := header_bytes data.sample_count data.channels ++ f.bytes.drop 44
                       pos := 44 }] ∧
    hashmap_get
      (ts3plugin_onEditPlaybackVoiceDataEvent clientID samples sampleCount channels p).client_map
      clientID
      = some { wav_file := none, talk_state := false, sample_count := data.sample_count,
               channels := 0 } ∧
    (∀ k, k ≠ clientID →
      hashmap_get
        (ts3plugin_onEditPlaybackVoiceDataEvent clientID samples sampleCount channels p).client_map
        k = hashmap_get p.client_map k) ∧
    (∀ e ∈ (ts3plugin_onEditPlaybackVoiceDataEvent clientID samples sampleCount channels
        p).client_map, ∀ g, e.2.wav_file = some g → e ∈ p.client_map) := by
  have hstep : ts3plugin_onEditPlaybackVoiceDataEvent clientID samples sampleCount channels p
      = { client_map := hashmap_store p.client_map clientID
            { wav_file := none, talk_state := false, sample_count := data.sample_count,
              channels := 0 }
          closed := p.closed ++ [write_header data f] } := by
    simp [ts3plugin_onEditPlaybackVoiceDataEvent, hget, htalk, hfile, hset, hne, end_talk_state]
  rw [hstep, write_header_eq]
  refine ⟨rfl, ?_, ?_, ?_⟩
  · exact hashmap_get_store_same _ _ _ _ hget
  · intro k hk
    exact hashmap_get_store_other _ _ _ _ hk
  · intro e he g hg
    rcases mem_hashmap_store _ _ _ _ he with h | ⟨_, h2⟩
    · exact h
    · rw [h2] at hg
      simp at hg

/-- C7, at a concrete input: a mono batch delivered to the stereo session of client 7. -/
theorem voice_channel_mismatch_aborts_witness :
    (ts3plugin_onEditPlaybackVoiceDataEvent 7 [5, 6] 2 1 stereo_plugin).closed
      = [{ name := "a.wav".toList
           bytes := header_bytes 150 2 ++ (List.replicate 40 0).drop 44
           pos := 44 }] ∧
    hashmap_get (ts3plugin_onEditPlaybackVoiceDataEvent 7 [5, 6] 2 1 stereo_plugin).client_map 7
      = some { wav_file := none, talk_state := false, sample_count := 150, channels := 0 } :=
  have h := voice_channel_mismatch_aborts stereo_plugin 7 [5, 6] 2 1 stereo_session
    ⟨"a.wav".toList, List.replicate 40 0, 40⟩ rfl rfl rfl (by decide) (by decide)
  ⟨h.1, h.2.1⟩

/-- C8: in every state reached from the empty registry by any sequence of talk-status,
sample-delivery and connection-status notifications (whatever the host and `fopen` answer),
every session in the registry has a stream exactly when its `talk_state` is set. -/
theorem wav_file_iff_talk_state (events : List Event) :
    ∀ e ∈ (run ts3plugin_init events).client_map,
      (e.2.wav_file ≠ none ↔ e.2.talk_state = true) :=
  run_consistent events ts3plugin_init (by intro e he; simp [ts3plugin_init] at he)

/-- C8, at a concrete input: after a "talking" notification and a batch for client 7, its
session is in the registry, holds a stream and has `talk_state` set. -/
theorem wav_file_iff_talk_state_witness :
    (7, ({ wav_file := some { name := "/tmp/ab_c_d-5.wav".toList,
                              bytes := List.replicate 36 0 ++ [1, 0], pos := 38 }
           talk_state := true, sample_count := 1, channels := 1 } : UserData))
      ∈ (run ts3plugin_init [.talk talk_env STATUS_TALKING 7, .voice 7 [1] 1 1]).client_map ∧
    ((some ({ name := "/tmp/ab_c_d-5.wav".toList, bytes := List.replicate 36 0 ++ [1, 0],
              pos := 38 } : FILE) ≠ none) ↔ true = true) :=
  ⟨by decide,
   wav_file_iff_talk_state [.talk talk_env STATUS_TALKING 7, .voice 7 [1] 1 1]
     (7, { wav_file := some { name := "/tmp/ab_c_d-5.wav".toList,
                              bytes := List.replicate 36 0 ++ [1, 0], pos := 38 }
           talk_state := true, sample_count := 1, channels := 1 }) (by decide)⟩

/-- C9: for every registry state, `ts3plugin_onConnectStatusChangeEvent` closes, after
writing over its first 44 bytes the header computed from that session's own sample count
and channel count, the stream of every session that is Recording (and nothing else), and
leaves the registry empty: no client id has a session any more, and the next talk-status
notification for any client id works on a newly created session (inactive, channels 0,
sample_count 0, no stream), the only entry of the registry. -/
theorem connect_finalizes_and_clears (p : Plugin) :
    (ts3plugin_onConnectStatusChangeEvent p).client_map = [] ∧
    (ts3plugin_onConnectStatusChangeEvent p).closed
      = p.closed ++ p.client_map.filterMap (fun e =>
          if e.2.talk_state then
            e.2.wav_file.map (fun g =>
              { name := g.name
                bytes := header_bytes e.2.sample_count e.2.channels ++ g.bytes.drop 44
                pos := 44 })
          else none) ∧
    (∀ clientID, hashmap_get (ts3plugin_onConnectStatusChangeEvent p).client_map clientID = none) ∧
    (∀ clientID, lookup_or_create (ts3plugin_onConnectStatusChangeEvent p).client_map clientID
      = ([(clientID, { wav_file := none, talk_state := false, sample_count := 0, channels := 0 })],
         { wav_file := none, talk_state := false, sample_count := 0, channels := 0 })) ∧
    (∀ env status clientID,
      (ts3plugin_onTalkStatusChangeEvent env status clientID
        (ts3plugin_onConnectStatusChangeEvent p)).client_map
      = [(clientID, (talk_status_body env status clientID
          { wav_file := none, talk_state := false, sample_count := 0, channels := 0 }
          (ts3plugin_onConnectStatusChangeEvent p).closed).1)]) := by
  refine ⟨rfl, ?_, fun _ => rfl, fun _ => rfl, ?_⟩
  · have hf : (fun e : Nat × UserData =>
        if e.2.talk_state then e.2.wav_file.map (write_header e.2) else none)
        = (fun e : Nat × UserData =>
          if e.2.talk_state then
            e.2.wav_file.map (fun g =>
              { name := g.name
                bytes := header_bytes e.2.sample_count e.2.channels ++ g.bytes.drop 44
                pos := 44 })
          else none) := by
      funext e
      have hw : write_header e.2 = fun g =>
          { name := g.name
            bytes := header_bytes e.2.sample_count e.2.channels ++ g.bytes.drop 44
            pos := 44 } := funext (write_header_eq e.2)
      rw [hw]
    simp only [ts3plugin_onConnectStatusChangeEvent, hashmap_iter_remove_user, hf]
  · intro env status clientID
    simp only [ts3plugin_onTalkStatusChangeEvent, ts3plugin_onConnectStatusChangeEvent,
      hashmap_clear, lookup_or_create, hashmap_get, hashmap_put, List.filter_nil,
      hashmap_store_cons, if_true]
    rfl

/-- C10 (the code departs from the claim): `end_talk_state` resets `channels` but leaves
`sample_count` as it is (150 stays 150); and in a run where client 7 speaks a turn of three
samples, the session has `sample_count` 3 after the turn has ended and still 3 after the
next "talking" notification has opened a new file. -/
theorem sample_count_survives_turn_end :
    (end_talk_state stereo_session []).1
      = { wav_file := none, talk_state := false, sample_count := 150, channels := 0 } ∧
    hashmap_get (run ts3plugin_init
        [.talk talk_env STATUS_TALKING 7, .voice 7 [1, 2, 3] 3 1, .talk talk_env 0 7]).client_map 7
      = some { wav_file := none, talk_state := false, sample_count := 3, channels := 0 } ∧
    hashmap_get (run ts3plugin_init
        [.talk talk_env STATUS_TALKING 7, .voice 7 [1, 2, 3] 3 1, .talk talk_env 0 7,
         .talk talk_env STATUS_TALKING 7]).client_map 7
      = some { wav_file := some { name := "/tmp/ab_c_d-5.wav".toList, bytes := [], pos := 36 }
               talk_state := true, sample_count := 3, channels := 0 } := by
  decide

/-- C11: a "talking" notification in which the speaker is the local participant, or the
identifier cannot be fetched, or `encode_base64` does not return 0, or `fopen` fails, leaves
the speaker's session Idle with no stream, leaves the other sessions as they were, and opens
no file: whoever holds a stream afterwards held it before.  The only stream it can close is
the one the speaker's session already held; for an Idle (or not yet known) speaker the list
of closed files is unchanged, so nothing is recorded for that turn.  The first case covers
every state: a "talking" notification for the local participant never opens a file. -/
theorem talking_failure_stays_idle (env : TalkEnv) (clientID : Nat) (p : Plugin)
    (hfail : env.my_id = clientID ∨ env.client_uid = none ∨
      (∃ uid, env.client_uid = some uid ∧ (encode_base64 uid).1 ≠ 0) ∨ env.fopen_ok = false) :
    (∃ d, hashmap_get (ts3plugin_onTalkStatusChangeEvent env STATUS_TALKING clientID p).client_map
        clientID = some d ∧ d.talk_state = false ∧ d.wav_file = none) ∧
    (∀ k, k ≠ clientID →
      hashmap_get (ts3plugin_onTalkStatusChangeEvent env STATUS_TALKING clientID p).client_map k
        = hashmap_get p.client_map k) ∧
    (∀ e ∈ (ts3plugin_onTalkStatusChangeEvent env STATUS_TALKING clientID p).client_map,
      ∀ g, e.2.wav_file = some g → e ∈ p.client_map) ∧
    (ts3plugin_onTalkStatusChangeEvent env STATUS_TALKING clientID p).closed
      = p.closed ++ (match hashmap_get p.client_map clientID with
          | some d => if d.talk_state then (d.wav_file.map (write_header d)).toList else []
          | none => []) ∧
    ((∀ d, hashmap_get p.client_map clientID = some d → d.talk_state = false ∧ d.wav_file = none) →
      (ts3plugin_onTalkStatusChangeEvent env STATUS_TALKING clientID p).closed = p.closed) := by
  obtain ⟨hget, hclosed, hother⟩ := talk_event_eq env STATUS_TALKING clientID p
  -- what the handler makes of the speaker's session when the turn cannot start
  have hbody : ∀ d : UserData,
      (talk_status_body env STATUS_TALKING clientID d p.closed).1.talk_state = false ∧
      (talk_status_body env STATUS_TALKING clientID d p.closed).1.wav_file = none ∧
      (talk_status_body env STATUS_TALKING clientID d p.closed).2
        = p.closed ++ (if d.talk_state then (d.wav_file.map (write_header d)).toList else []) := by
    intro d
    unfold talk_status_body
    rw [if_pos rfl]
    split
    · next hc =>
      split
      · next uid huid =>
        dsimp only
        split
        · have hopen : env.fopen_ok = false := by
            rcases hfail with h | h | ⟨u, hu, hne⟩ | h
            · exact absurd h hc.2
            · rw [huid] at h; cases h
            · exact absurd rfl hne
            · exact h
          simp [fopen, hopen, hc.1]
        · exact ⟨rfl, rfl, end_talk_state_snd d p.closed⟩
      · exact ⟨rfl, rfl, end_talk_state_snd d p.closed⟩
    · exact ⟨rfl, rfl, end_talk_state_snd d p.closed⟩
  have hcl : (ts3plugin_onTalkStatusChangeEvent env STATUS_TALKING clientID p).closed
      = p.closed ++ (match hashmap_get p.client_map clientID with
          | some d => if d.talk_state then (d.wav_file.map (write_header d)).toList else []
          | none => []) := by
    rw [hclosed, (hbody _).2.2]
    cases hashmap_get p.client_map clientID <;> simp [fresh_session]
  refine ⟨⟨_, hget, (hbody _).1, (hbody _).2.1⟩, hother, ?_, hcl, ?_⟩
  · intro e he g hg
    rcases mem_talk_event _ _ _ _ _ he with h | h | h
    · exact h
    · rw [h] at hg; simp [fresh_session] at hg
    · rw [h, (hbody _).2.1] at hg; cases hg
  · intro hidle
    rw [hcl]
    cases hd : hashmap_get p.client_map clientID with
    | none => simp
    | some d => simp [(hidle d hd).1]

/-- C11, at a concrete input: a "talking" notification for client 7 while `fopen` fails, on
the empty registry. -/
theorem talking_failure_stays_idle_witness :
    (∃ d, hashmap_get (ts3plugin_onTalkStatusChangeEvent { talk_env with fopen_ok := false }
        STATUS_TALKING 7 ts3plugin_init).client_map 7 = some d ∧
      d.talk_state = false ∧ d.wav_file = none) ∧
    (ts3plugin_onTalkStatusChangeEvent { talk_env with fopen_ok := false }
        STATUS_TALKING 7 ts3plugin_init).closed = [] :=
  have h := talking_failure_stays_idle { talk_env with fopen_ok := false } 7 ts3plugin_init
    (Or.inr (Or.inr (Or.inr rfl)))
  ⟨h.1, h.2.2.2.2 (fun d hd => by simp [ts3plugin_init, hashmap_get] at hd)⟩

/-- C12 (the code departs from the claim): client 7 speaks a turn of three mono samples and
then a second turn in which no sample is written.  When the second turn receives no batch at
all, its file is the 44-byte header with data size 0, as the claim says.  When the second
turn receives one batch of zero frames (1 channel), still no sample is written and the file
is again 44 bytes long, but its header announces a data size of 6: `channels` has been set
by the batch and `sample_count` still holds the 3 frames of the first turn. -/
theorem empty_later_turn_announces_data :
    (run ts3plugin_init
        [.talk talk_env STATUS_TALKING 7, .voice 7 [1, 2, 3] 3 1, .talk talk_env 0 7,
         .talk talk_env STATUS_TALKING 7, .talk talk_env 0 7]).closed.map
      (fun g => (g.bytes.length, le_value ((g.bytes.drop 40).take 4)))
      = [(44, 6), (44, 0)] ∧
    (hashmap_get (run ts3plugin_init
        [.talk talk_env STATUS_TALKING 7, .voice 7 [1, 2, 3] 3 1, .talk talk_env 0 7,
         .talk talk_env STATUS_TALKING 7, .voice 7 [] 0 1]).client_map 7).map
      (fun d => (d.wav_file.map FILE.bytes, d.sample_count, d.channels))
      = some (some [], 3, 1) ∧
    (run ts3plugin_init
        [.talk talk_env STATUS_TALKING 7, .voice 7 [1, 2, 3] 3 1, .talk talk_env 0 7,
         .talk talk_env STATUS_TALKING 7, .voice 7 [] 0 1, .talk talk_env 0 7]).closed.map
      (fun g => (g.bytes.length, le_value ((g.bytes.drop 40).take 4)))
      = [(44, 6), (44, 6)] := by
  decide

/-- C13: for every 16-bit signed sample value `v`, the call made by the write loop of
`ts3plugin_onEditPlaybackVoiceDataEvent` for that sample, `write_little_endian` of `v`
converted to `unsigned int` on 2 bytes, writes two bytes `b0`, `b1` (appended when the stream
is at its end) with `b0 + 256*b1 = v mod 65536`, and reading them back as a little-endian
two's-complement 16-bit integer gives `v`. -/
theorem sample_bytes_decode (v : Int) (hlo : -32768 ≤ v) (hhi : v ≤ 32767) :
    (∀ f, write_samples [v] 1 f = write_little_endian (to_unsigned v) 2 f) ∧
    (∀ f, write_little_endian (to_unsigned v) 2 f
      = fwrite [to_unsigned v % 256, to_unsigned v / 256 % 256] f) ∧
    (∀ f, f.pos = f.bytes.length →
      (write_little_endian (to_unsigned v) 2 f).bytes
        = f.bytes ++ [to_unsigned v % 256, to_unsigned v / 256 % 256]) ∧
    to_unsigned v % 256 < 256 ∧ to_unsigned v / 256 % 256 < 256 ∧
    ((to_unsigned v % 256 : Nat) : Int) + 256 * ((to_unsigned v / 256 % 256 : Nat) : Int)
      = v % 65536 ∧
    decode_int16 (to_unsigned v % 256) (to_unsigned v / 256 % 256) = v := by
  have hw : ∀ f, write_little_endian (to_unsigned v) 2 f
      = fwrite [to_unsigned v % 256, to_unsigned v / 256 % 256] f := by
    intro f
    rw [show (2 : Int) = ((2 : Nat) : Int) from rfl, write_little_endian_eq, le_bytes_two]
  have hu : ((to_unsigned v : Nat) : Int) = v % 4294967296 := by
    unfold to_unsigned
    omega
  refine ⟨fun f => rfl, hw, ?_, ?_, ?_, ?_, ?_⟩
  · intro f hf
    rw [hw, fwrite_eq _ _ (by omega)]
    simp [hf]
  · omega
  · omega
  · omega
  · unfold decode_int16
    split <;> omega

/-- C13, at a concrete input: the sample -2 is written as the bytes FE FF. -/
theorem sample_bytes_decode_witness :
    (∀ f, write_little_endian (to_unsigned (-2)) 2 f
      = fwrite [to_unsigned (-2) % 256, to_unsigned (-2) / 256 % 256] f) ∧
    decode_int16 (to_unsigned (-2) % 256) (to_unsigned (-2) / 256 % 256) = -2 ∧
    [to_unsigned (-2) % 256, to_unsigned (-2) / 256 % 256] = [254, 255] :=
  have h := sample_bytes_decode (-2) (by decide) (by decide)
  ⟨h.2.1, h.2.2.2.2.2.2, by decide⟩

/-- C14: `encode_base64` returns 0; a string with no '+' and no '/' is left unchanged; for
every buffer the string it holds afterwards (the characters before the first NUL) contains
no '+' and no '/' (so for a string given without NUL characters, no character of the output
is '+' or '/'); and applying `encode_base64` to its own output changes nothing. -/
theorem encode_base64_idempotent (s : List Char) :
    (encode_base64 s).1 = 0 ∧
    ((∀ c ∈ s, c ≠ '+' ∧ c ≠ '/') → (encode_base64 s).2 = s) ∧
    (∀ c ∈ c_string (encode_base64 s).2, c ≠ '+' ∧ c ≠ '/') ∧
    ((∀ c ∈ s, c ≠ Char.ofNat 0) → ∀ c ∈ (encode_base64 s).2, c ≠ '+' ∧ c ≠ '/') ∧
    encode_base64 (encode_base64 s).2 = encode_base64 s := by
  refine ⟨rfl, encode_base64_loop_fixed s, encode_base64_loop_safe s,
    encode_base64_loop_safe_all s, ?_⟩
  simp [encode_base64, encode_base64_loop_idem]

/-- C15: once `end_talk_state` has run on a session, running it again closes nothing and
leaves the session as it is; so does `remove_user` (the callback of disconnect and shutdown),
and so does every talk-status notification that does not open a file (a non-talking one or a
"talking" one that fails), whatever the host answers. -/
theorem end_talk_state_twice (data : UserData) (closed closed' : List FILE) :
    end_talk_state (end_talk_state data closed).1 closed'
      = ((end_talk_state data closed).1, closed') ∧
    (∀ key, remove_user closed' key (end_talk_state data closed).1 = closed') ∧
    (∀ env status clientID,
      (talk_status_body env status clientID (end_talk_state data closed).1 closed').1.wav_file
        = none →
      talk_status_body env status clientID (end_talk_state data closed).1 closed'
        = ((end_talk_state data closed).1, closed')) := by
  have h1 : end_talk_state (end_talk_state data closed).1 closed'
      = ((end_talk_state data closed).1, closed') := rfl
  refine ⟨h1, fun _ => rfl, ?_⟩
  intro env status clientID hnone
  unfold talk_status_body at hnone ⊢
  split
  · next hs =>
    rw [if_pos hs] at hnone
    split
    · next hc =>
      rw [if_pos hc] at hnone
      split
      · next uid huid =>
        simp only [huid] at hnone
        dsimp only at hnone ⊢
        split
        · next hr =>
          rw [if_pos hr] at hnone
          cases hopen : fopen (file_name env.soundboard (encode_base64 uid).2 env.time_stamp)
              env.fopen_ok with
          | none => rfl
          | some g => rw [hopen] at hnone; cases hnone
        · exact h1
      · exact h1
    · exact h1
  · exact h1

/-- C16: a sample delivery for a speaker that has no session, or whose session is Idle
(`talk_state` clear or no stream), changes nothing: the registry, every session in it and
the list of closed files are as before. -/
theorem voice_idle_noop (clientID : Nat) (samples : List Int) (sampleCount channels : Int)
    (p : Plugin)
    (hidle : ∀ d, hashmap_get p.client_map clientID = some d →
      d.talk_state = false ∨ d.wav_file = none) :
    ts3plugin_onEditPlaybackVoiceDataEvent clientID samples sampleCount channels p = p :=
  voice_guard_fails clientID samples sampleCount channels p hidle

/-- C16, at a concrete input: a batch for client 8, unknown to a registry that holds the
Recording session of client 7. -/
theorem voice_idle_noop_witness :
    ts3plugin_onEditPlaybackVoiceDataEvent 8 [1, 2] 2 1 stereo_plugin = stereo_plugin :=
  voice_idle_noop 8 [1, 2] 2 1 stereo_plugin (fun d hd => by
    simp [stereo_plugin, hashmap_get] at hd)

/-- C17: for two distinct speakers `A` and `B`, a talk-status or sample-delivery notification
for `A` leaves the session of `B` (its `talk_state`, `channels`, `sample_count` and its
stream with all its bytes) as it was, and only appends to the list of closed streams, so
the files already closed keep their bytes.  Hence, under any interleaving of notifications
of the two speakers, the session of `B` and the streams closed by `B`'s notifications
(headers included) are those of the run of `B`'s own notifications alone. -/
theorem other_speaker_unchanged (A B : Nat) (hAB : A ≠ B) (p : Plugin) :
    (∀ env status,
      hashmap_get (ts3plugin_onTalkStatusChangeEvent env status A p).client_map B
        = hashmap_get p.client_map B ∧
      ∃ extra, (ts3plugin_onTalkStatusChangeEvent env status A p).closed = p.closed ++ extra) ∧
    (∀ samples sampleCount channels,
      hashmap_get
        (ts3plugin_onEditPlaybackVoiceDataEvent A samples sampleCount channels p).client_map B
        = hashmap_get p.client_map B ∧
      ∃ extra, (ts3plugin_onEditPlaybackVoiceDataEvent A samples sampleCount channels p).closed
        = p.closed ++ extra) ∧
    (∀ evs : List Event, (∀ ev ∈ evs, ev.client = some A ∨ ev.client = some B) →
      hashmap_get (run p evs).client_map B
        = hashmap_get
            (run p (evs.filter (fun ev => decide (ev.client = some B)))).client_map B ∧
      closed_by B p evs
        = (run p (evs.filter (fun ev => decide (ev.client = some B)))).closed.drop
            p.closed.length) := by
  refine ⟨fun env status => ⟨?_, ?_⟩, fun samples sampleCount channels => ⟨?_, ?_⟩, ?_⟩
  · exact step_other (.talk env status A) A B rfl hAB p
  · exact step_closed_prefix (.talk env status A) p
  · exact step_other (.voice A samples sampleCount channels) A B rfl hAB p
  · exact step_closed_prefix (.voice A samples sampleCount channels) p
  · intro evs hevs
    have hne : ∀ ev ∈ evs, ev.client ≠ none := by
      intro ev hev hnone
      rcases hevs ev hev with h | h <;> rw [hnone] at h <;> cases h
    obtain ⟨h1, h2⟩ := run_filter B evs p p hne rfl
    refine ⟨h1, ?_⟩
    rw [h2]
    exact closed_by_own B _ p (fun ev hev => by
      have := (List.mem_filter.mp hev).2
      simpa using this)

/-- C17, at a concrete input: a "talking" notification for client 8 leaves the Recording
session of client 7 as it was. -/
theorem other_speaker_unchanged_witness :
    8 ≠ 7 ∧
    hashmap_get (ts3plugin_onTalkStatusChangeEvent talk_env STATUS_TALKING 8
        stereo_plugin).client_map 7 = hashmap_get stereo_plugin.client_map 7 :=
  ⟨by decide, ((other_speaker_unchanged 8 7 (by decide) stereo_plugin).1 talk_env
    STATUS_TALKING).1⟩

/-- C18 (counterexample to the claim as stated): for the Recording session with 2 channels
and 150 sample frames, the total-size field at offsets 4..7 of the closed file reads 636,
which is `36 + 2*150*2`, not `36 + 2*150*2 - 8 = 628`. -/
theorem total_size_is_not_minus_eight :
    (end_talk_state stereo_session []).2.map (fun g => le_value ((g.bytes.drop 4).take 4))
      = [636] ∧
    ¬ ((end_talk_state stereo_session []).2.map (fun g => le_value ((g.bytes.drop 4).take 4))
      = [36 + 2 * 150 * 2 - 8]) := by
  decide

/-- C18 (amended): for every Recording session with channel count `C` and sample count `S`,
the total-size field that `end_talk_state` writes at stream offsets 4..7 is `36 + 2*S*C` as a
4-byte little-endian integer (its four low bytes; they decode to `36 + 2*S*C` when that is
below `2^32`). -/
theorem end_talk_state_total_size (data : UserData) (f : FILE) (closed : List FILE)
    (C S : Nat) (hfile : data.wav_file = some f) (htalk : data.talk_state = true)
    (hC : data.channels = (C : Int)) (hS : data.sample_count = (S : Int)) :
    (end_talk_state data closed).2 = closed ++ [write_header data f] ∧
    ((write_header data f).bytes.drop 4).take 4 = le_bytes (36 + 2 * S * C) 4 ∧
    (36 + 2 * S * C < 2 ^ 32 →
      le_value (((write_header data f).bytes.drop 4).take 4) = 36 + 2 * S * C) := by
  have hfield : ((write_header data f).bytes.drop 4).take 4 = le_bytes (36 + 2 * S * C) 4 := by
    have hcast : (36 + 2 * (S : Int) * (C : Int)) = ((36 + 2 * S * C : Nat) : Int) := by
      push_cast; ring
    rw [write_header_eq, hC, hS]
    simp only [header_bytes, hcast, le_bytes_four_to_unsigned, c_str_RIFF, List.cons_append,
      List.nil_append, List.append_assoc]
    rw [le_bytes_four]
    rfl
  refine ⟨?_, hfield, ?_⟩
  · simp [end_talk_state, hfile, htalk]
  · intro hfit
    rw [hfield, le_value_le_bytes]
    exact Nat.mod_eq_of_lt (by norm_num at hfit ⊢; exact hfit)

/-- C18 (amended), at a concrete input: 2 channels, 150 sample frames, field value 636. -/
theorem end_talk_state_total_size_witness :
    ((write_header stereo_session ⟨"a.wav".toList, List.replicate 40 0, 40⟩).bytes.drop 4).take 4
      = le_bytes (36 + 2 * 150 * 2) 4 ∧
    le_value (((write_header stereo_session
      ⟨"a.wav".toList, List.replicate 40 0, 40⟩).bytes.drop 4).take 4) = 36 + 2 * 150 * 2 :=
  have h := end_talk_state_total_size stereo_session ⟨"a.wav".toList, List.replicate 40 0, 40⟩
    [] 2 150 rfl rfl rfl rfl
  ⟨h.2.1, h.2.2 (by decide)⟩

/-- C19: when a Recording session receives a further "talking" notification, the handler
closes its stream once, with the header computed from the accumulated sample count and
channel count, leaves the session Idle with no stream, changes no other session and opens
no stream; a sample batch delivered to the speaker afterwards changes nothing. -/
theorem talking_while_recording_finalizes (env : TalkEnv) (clientID : Nat) (p : Plugin)
    (data : UserData) (f : FILE)
    (hget : hashmap_get p.client_map clientID = some data)
    (htalk : data.talk_state = true) (hfile : data.wav_file = some f) :
    (ts3plugin_onTalkStatusChangeEvent env STATUS_TALKING clientID p).closed
      = p.closed ++ [{ name := f.name
                       bytes := header_bytes data.sample_count data.channels ++ f.bytes.drop 44
                       pos := 44 }] ∧
    hashmap_get (ts3plugin_onTalkStatusChangeEvent env STATUS_TALKING clientID p).client_map
      clientID
      = some { wav_file := none, talk_state := false, sample_count := data.sample_count,
               channels := 0 } ∧
    (∀ k, k ≠ clientID →
      hashmap_get (ts3plugin_onTalkStatusChangeEvent env STATUS_TALKING clientID p).client_map k
        = hashmap_get p.client_map k) ∧
    (∀ e ∈ (ts3plugin_onTalkStatusChangeEvent env STATUS_TALKING clientID p).client_map,
      ∀ g, e.2.wav_file = some g → e ∈ p.client_map) ∧
    (∀ samples sampleCount channels,
      ts3plugin_onEditPlaybackVoiceDataEvent clientID samples sampleCount channels
        (ts3plugin_onTalkStatusChangeEvent env STATUS_TALKING clientID p)
      = ts3plugin_onTalkStatusChangeEvent env STATUS_TALKING clientID p) := by
  obtain ⟨hg, hclosed, hother⟩ := talk_event_eq env STATUS_TALKING clientID p
  have hbody : talk_status_body env STATUS_TALKING clientID data p.closed
      = end_talk_state data p.closed := by
    simp [talk_status_body, htalk]
  rw [hget, Option.getD_some, hbody] at hg hclosed
  have hsess : hashmap_get
      (ts3plugin_onTalkStatusChangeEvent env STATUS_TALKING clientID p).client_map clientID
      = some { wav_file := none, talk_state := false, sample_count := data.sample_count,
               channels := 0 } := hg
  refine ⟨?_, hsess, hother, ?_, ?_⟩
  · rw [hclosed, end_talk_state_snd, htalk, hfile, if_pos rfl, Option.map_some',
      Option.toList_some, write_header_eq]
  · intro e he g hg'
    rcases mem_talk_event _ _ _ _ _ he with h | h | h
    · exact h
    · rw [h] at hg'; simp [fresh_session] at hg'
    · rw [hget, Option.getD_some, hbody] at h
      rw [h] at hg'
      cases hg'
  · intro samples sampleCount channels
    exact voice_guard_fails clientID samples sampleCount channels _ (fun d hd => by
      rw [hsess] at hd
      cases hd
      exact Or.inl rfl)

/-- C19, at a concrete input: a second "talking" notification for the Recording client 7. -/
theorem talking_while_recording_finalizes_witness :
    (ts3plugin_onTalkStatusChangeEvent talk_env STATUS_TALKING 7 stereo_plugin).closed
      = [{ name := "a.wav".toList
           bytes := header_bytes 150 2 ++ (List.replicate 40 0).drop 44
           pos := 44 }] ∧
    hashmap_get (ts3plugin_onTalkStatusChangeEvent talk_env STATUS_TALKING 7
        stereo_plugin).client_map 7
      = some { wav_file := none, talk_state := false, sample_count := 150, channels := 0 } :=
  have h := talking_while_recording_finalizes talk_env 7 stereo_plugin stereo_session
    ⟨"a.wav".toList, List.replicate 40 0, 40⟩ rfl rfl rfl
  ⟨h.1, h.2.1⟩

end SoundBoard
